import Mathlib

/-!
Verification of the Session & Command Client of the `alexa-cli` repository
(`internal/api/client.go`), as a shallow embedding in Lean 4.

Modelling conventions:
* Go strings are modelled as `List Char`.  Byte-level UTF-8 details (Go
  indexes strings by byte) are modelled at character granularity, and
  `strings.ToLower` is modelled by Lean's ASCII `Char.toLower`.
* HTTP traffic is abstracted: each poll iteration's fetch is a function
  from the (model) clock value at which the request is issued to an
  `Option` result, where `none` stands for a failed (error) fetch.
* Go's `time` is a `Nat` millisecond clock; the polling loops of
  `Ask`/`AskPlus` advance it by the fixed 500 ms interval per iteration.
  The loops recurse on an explicit iteration budget `endTime - now`,
  which is sufficient because every iteration advances the clock by
  500 ≥ 1 ms; this keeps every definition kernel-computable.
* Functions that return `error` in Go are modelled with `Option`/sum
  results; the doc comment of each definition says which Go error the
  `none` case corresponds to.
-/

/-- Convert a string literal to the `List Char` representation used for Go
strings throughout this file. -/
def strL (s : String) : List Char := s.data

/-- Model of Go `strings.HasPrefix s pre` (`true` iff `pre` is an initial
segment of `s`). -/
def listStarts : List Char → List Char → Bool
  | _, [] => true
  | [], _ :: _ => false
  | c :: cs, p :: ps => c = p && listStarts cs ps

/-- Model of Go `strings.Contains s sub` (substring occurrence; the empty
needle occurs in every string). -/
def goContains : List Char → List Char → Bool
  | s, sub =>
    if listStarts s sub then true
    else
      match s with
      | [] => false
      | _ :: t => goContains t sub

/-- Model of Go `strings.ToLower` (restricted to ASCII case folding). -/
def goToLower (s : List Char) : List Char := s.map Char.toLower

/-- Model of Go `strings.Trim(s, "'\"")`: remove leading and trailing
single/double quote characters. -/
def goTrimQuotes (s : List Char) : List Char :=
  let isQ : Char → Bool := fun c => c = '"' || c = Char.ofNat 39
  (((s.dropWhile isQ).reverse).dropWhile isQ).reverse


/-! ## Voice history records and the `Ask` correlation scan

`HistoryRecord` mirrors the struct of the same name in `client.go`
(fields `RecordKey`, `Timestamp`, `Device`, `CustomerUtterance`,
`AlexaResponse`). -/

structure HistoryRecord where
  recordKey : List Char
  timestamp : Int
  device : List Char
  customerUtterance : List Char
  alexaResponse : List Char
deriving DecidableEq

/-- The inner record loop of `Client.Ask` (client.go lines 706-724): scan
the records returned by one history poll and return the first accepted
`AlexaResponse`.  A record is skipped unless its `RecordKey` contains the
device serial, its timestamp is at least `startTime`, its utterance is
non-empty and contains (case-insensitively) the first
`min(len(question), 20)` characters of the question, and its
`AlexaResponse` is non-empty. -/
def askScan (serial question : List Char) (startTime : Int) :
    List HistoryRecord → Option (List Char)
  | [] => none
  | r :: rs =>
    if goContains r.recordKey serial
        && decide (startTime ≤ r.timestamp)
        && decide (r.customerUtterance ≠ [])
        && goContains (goToLower r.customerUtterance) (goToLower (question.take 20))
        && decide (r.alexaResponse ≠ []) then
      some r.alexaResponse
    else askScan serial question startTime rs

/-! ## The generic 500 ms polling loop shared by `Ask` and `AskPlus`

Both Go loops are `for time.Now().Before(endTime) { time.Sleep(500ms);
attempt(); }`, where a failed attempt (fetch error or no accepted match)
just continues.  `pollLoopF` is that loop with the clock explicit; the
structural budget `endTime - now` bounds the number of iterations (each
iteration consumes 500 ms of the remaining `endTime - now`, so a budget
of one per millisecond never runs out before the clock test fails). -/

def pollLoopF (attempt : Nat → Option (List Char)) :
    Nat → Nat → Nat → Option (List Char)
  | 0, _, _ => none
  | fuel + 1, now, endTime =>
    if now < endTime then
      match attempt (now + 500) with
      | some r => some r
      | none => pollLoopF attempt fuel (now + 500) endTime
    else none

/-- The clock values at which the polling loop issues its fetches, with
the same iteration budget as `pollLoopF`. -/
def pollTimesF : Nat → Nat → Nat → List Nat
  | 0, _, _ => []
  | fuel + 1, now, endTime =>
    if now < endTime then (now + 500) :: pollTimesF fuel (now + 500) endTime
    else []

/-- The clock values polled by a loop entered at `now` with deadline
`endTime`. -/
def pollTimes (now endTime : Nat) : List Nat := pollTimesF (endTime - now) now endTime

/-- One `Ask` poll iteration (client.go lines 698-703 plus the record
scan): fetch the history at clock `t` (a `none` fetch is the swallowed
transient error of line 700-703) and scan the returned records. -/
def askAttempt (serial question : List Char) (startTime : Int)
    (fetch : Nat → Option (List HistoryRecord)) (t : Nat) : Option (List Char) :=
  match fetch t with
  | none => none
  | some recs => askScan serial question startTime recs

/-- The polling phase of `Client.Ask` (client.go lines 692-727): poll the
history backend every 500 ms until the deadline; `none` is the
`TimeoutError` of line 727. -/
def askLoop (serial question : List Char) (startTime : Int)
    (fetch : Nat → Option (List HistoryRecord)) (now endTime : Nat) :
    Option (List Char) :=
  pollLoopF (askAttempt serial question startTime fetch) (endTime - now) now endTime


/-! ## Conversation fragments and the `AskPlus` pipeline

These structures mirror `FragmentItem`-style inline structs, `CardData`,
`FragmentContent`, and `ConversationFragment` in `client.go` (with
`Metadata.Purpose` flattened to a `purpose` field and a missing
`Content` pointer modelled as `Option`). -/

structure FragmentItem where
  text : List Char
  style : List Char
deriving DecidableEq

structure CardData where
  text : List Char
  items : List FragmentItem
deriving DecidableEq

structure FragmentContent where
  text : List Char
  items : List FragmentItem
  cardData : Option CardData
deriving DecidableEq

structure ConversationFragment where
  fragmentURI : List Char
  content : Option FragmentContent
  purpose : List Char
deriving DecidableEq

/-- `FragmentContent.GetText` (client.go lines 842-850): the direct text,
else the `datasources.cardData` text, else empty. -/
def fragGetText (fc : FragmentContent) : List Char :=
  if fc.text ≠ [] then fc.text
  else
    match fc.cardData with
    | some cd => if cd.text ≠ [] then cd.text else []
    | none => []

/-- The text of a fragment: `""` when `Content` is nil, else `GetText`. -/
def fragText (f : ConversationFragment) : List Char :=
  match f.content with
  | none => []
  | some fc => fragGetText fc

/-- The item list the `AskPlus` citation step walks (client.go lines
1508-1515): direct content items if non-empty, else the card-data items,
else none. -/
def fragItems (f : ConversationFragment) : List FragmentItem :=
  match f.content with
  | none => []
  | some fc =>
    if fc.items ≠ [] then fc.items
    else
      match fc.cardData with
      | some cd => cd.items
      | none => []

/-- The reply built from an accepted fragment (client.go lines 1505-1521):
the fragment text, extended with `"\n" + item.Text` for every item whose
style is `text-style-attribution`. -/
def fragResult (text : List Char) (items : List FragmentItem) : List Char :=
  items.foldl
    (fun acc it =>
      if it.style = strL "text-style-attribution" then acc ++ '\n' :: it.text else acc)
    text

/-- The inner fragment loop of `AskPlus` (client.go lines 1486-1524):
accept the first fragment with non-empty text whose metadata purpose is
`AGENT` or whose fragment URI contains `LLM:APE`. -/
def fragScan : List ConversationFragment → Option (List Char)
  | [] => none
  | f :: fs =>
    if fragText f ≠ [] ∧
        (f.purpose = strL "AGENT" ∨ goContains f.fragmentURI (strL "LLM:APE") = true) then
      some (fragResult (fragText f) (fragItems f))
    else fragScan fs

/-- One `AskPlus` poll iteration (client.go lines 1477-1481 plus the
fragment loop): a `none` fetch is the swallowed `GetConversationFragments`
error of lines 1478-1481. -/
def askPlusAttempt (fetch : Nat → Option (List ConversationFragment)) (t : Nat) :
    Option (List Char) :=
  match fetch t with
  | none => none
  | some frags => fragScan frags

/-- The polling phase of `AskPlus` (client.go lines 1467-1527); `none` is
the `TimeoutError` of line 1527. -/
def askPlusLoop (fetch : Nat → Option (List ConversationFragment))
    (now endTime : Nat) : Option (List Char) :=
  pollLoopF (askPlusAttempt fetch) (endTime - now) now endTime

/-- The outcome of one `AskPlus` call.  `sendFailed` is the propagated
`SendAVSTextMessageWithResponse` error (line 1446), `noConversation` the
"no conversation ID received from Alexa" error (line 1463), `timeout` the
deadline-exhaustion error (line 1527). -/
inductive AskPlusResult where
  | reply : List Char → AskPlusResult
  | noConversation : AskPlusResult
  | timeout : AskPlusResult
  | sendFailed : AskPlusResult
deriving DecidableEq

/-- The polling tail of `AskPlus` wrapped into an outcome. -/
def askPlusPollPhase (fetch : Nat → Option (List ConversationFragment))
    (now endTime : Nat) : AskPlusResult :=
  match askPlusLoop fetch now endTime with
  | some s => .reply s
  | none => .timeout

/-- `Client.AskPlus` (client.go lines 1434-1527) after the best-effort
`SynchronizeState` call.  `priorConvID` is the session's
`c.conversationID` before the call; `send` is the outcome of
`SendAVSTextMessageWithResponse` — `none` for a propagated send error,
`some (convID, initialText)` for its returned pair (both empty on an
HTTP 204 response, lines 955-958).  If inline text was returned it is
returned directly; else the session conversation id is replaced by
`convID` when non-empty; if no conversation id exists at all the call
fails with `noConversation`; otherwise it polls. -/
def askPlusModel (priorConvID : List Char) (send : Option (List Char × List Char))
    (fetch : Nat → Option (List ConversationFragment)) (now endTime : Nat) :
    AskPlusResult :=
  match send with
  | none => .sendFailed
  | some (convID, initialText) =>
    if initialText ≠ [] then .reply initialText
    else
      let cid := if convID ≠ [] then convID else priorConvID
      if cid = [] then .noConversation
      else askPlusPollPhase fetch now endTime


/-! ## Inline response extraction from the AVS multipart reply (C4)

`SendAVSTextMessageWithResponse` (client.go lines 978-995) applies the
regular expression `"text"\s*:\s*"([^"]+)"` to the raw response body with
`FindAllStringSubmatch` and then selects a match.  The scanner below is
that regular expression specialised: Go's `\s` character class is
`[\t\n\f\r ]`, and on this pattern RE2's leftmost-first greedy semantics
are deterministic (the capture `[^"]+` extends to the next quote). -/

/-- Go regexp `\s` class: tab, newline, form feed, carriage return, space. -/
def isGoWs (c : Char) : Bool :=
  c = ' ' || c = '\t' || c = '\n' || c = Char.ofNat 12 || c = '\r'

/-- Match a literal at the start of the input, returning the remainder. -/
def litAt : List Char → List Char → Option (List Char)
  | [], s => some s
  | _ :: _, [] => none
  | l :: ls, c :: cs => if c = l then litAt ls cs else none

/-- Match `([^"]+)"` at the start of the input: a non-empty capture of
non-quote characters terminated by a double quote. -/
def captureToQuote (s : List Char) : Option (List Char) :=
  let cap := s.takeWhile (fun c => !(c = '"' : Bool))
  if cap = [] then none
  else
    match s.drop cap.length with
    | c :: _ => if c = '"' then some cap else none
    | [] => none

/-- The literal head `"text"` of the text-field pattern. -/
def litText : List Char := strL "\"text\""

/-- Match the whole pattern `"text"\s*:\s*"([^"]+)"` at the start of the
input, returning the capture and the remainder after the match (used to
continue a non-overlapping `FindAll` scan). -/
def textPatAt (s : List Char) : Option (List Char × List Char) :=
  match litAt litText s with
  | none => none
  | some r1 =>
    match r1.dropWhile isGoWs with
    | ':' :: r2 =>
      match r2.dropWhile isGoWs with
      | '"' :: r3 =>
        let cap := r3.takeWhile (fun c => !(c = '"' : Bool))
        if cap = [] then none
        else
          match r3.drop cap.length with
          | '"' :: rest => some (cap, rest)
          | _ => none
      | _ => none
    | _ => none

/-- `FindAllStringSubmatch` for the text-field pattern: all
non-overlapping leftmost matches' captures, in order.  The budget is the
input length; it suffices because a failed position advances one
character and a match consumes at least the literal `"text"`. -/
def findTextAux : Nat → List Char → List (List Char)
  | 0, _ => []
  | _, [] => []
  | fuel + 1, c :: t =>
    match textPatAt (c :: t) with
    | some (cap, rest) => cap :: findTextAux fuel rest
    | none => findTextAux fuel t

/-- All captures of the `"text"` field pattern in the raw body. -/
def findTextMatches (s : List Char) : List (List Char) := findTextAux s.length s

/-- The match-selection loop of `SendAVSTextMessageWithResponse` (client.go
lines 982-992): walking the match list with its index, accept the first
match with index `> 0` that does not contain the input text, provided the
raw body contains `LLM:APE` or `"purpose":"AGENT"`; `[]` means no match
was accepted (Go's `responseText` stays `""`). -/
def avsSelectText (input raw : List Char) : List (List Char) → Nat → List Char
  | [], _ => []
  | m :: ms, i =>
    if decide (i > 0) && !(goContains m input) &&
        (goContains raw (strL "LLM:APE") || goContains raw (strL "\"purpose\":\"AGENT\"")) then
      m
    else avsSelectText input raw ms (i + 1)

/-- The inline `responseText` extracted by
`SendAVSTextMessageWithResponse` from a 200 response body `raw` for input
text `input`. -/
def avsResponseText (input raw : List Char) : List Char :=
  avsSelectText input raw (findTextMatches raw) 0

/-! ## `mustJSON` on strings and the behavior-sequence payload templates

`mustJSON` (client.go lines 737-740) is `json.Marshal`; on a string value
Go's encoder emits a quoted JSON string with `"` `\` `\n` `\r` `\t`
escaped as two-character escapes, other control characters, `<` `>` `&`
(HTML escaping is on for `json.Marshal`) and U+2028/U+2029 as lowercase
`\u`-escapes, and everything else verbatim. -/

/-- Lowercase hexadecimal digit, as emitted by Go's JSON encoder. -/
def hexDigitChar (n : Nat) : Char :=
  if n < 10 then Char.ofNat (48 + n) else Char.ofNat (87 + n)

/-- Four lowercase hex digits of a scalar value below 0x10000. -/
def hex4 (n : Nat) : List Char :=
  [hexDigitChar (n / 4096 % 16), hexDigitChar (n / 256 % 16),
   hexDigitChar (n / 16 % 16), hexDigitChar (n % 16)]

/-- The encoding of one character inside a Go JSON string literal. -/
def goEscapeChar (c : Char) : List Char :=
  if c = '"' then ['\\', '"']
  else if c = '\\' then ['\\', '\\']
  else if c = '\n' then ['\\', 'n']
  else if c = '\r' then ['\\', 'r']
  else if c = '\t' then ['\\', 't']
  else if c.toNat < 32 ∨ c = '<' ∨ c = '>' ∨ c = '&' ∨ c.toNat = 8232 ∨ c.toNat = 8233 then
    '\\' :: 'u' :: hex4 c.toNat
  else [c]

/-- The body (between the quotes) of the Go JSON encoding of a string. -/
def escBody : List Char → List Char
  | [] => []
  | c :: s => goEscapeChar c ++ escBody s

/-- `mustJSON` on a string: the quoted, escaped JSON string literal. -/
def goEncodeString (s : List Char) : List Char := '"' :: escBody s ++ ['"']

/-- Value of one hexadecimal digit (either case), for the reference JSON
string reader below. -/
def hexDigitVal (c : Char) : Option Nat :=
  if 48 ≤ c.toNat ∧ c.toNat ≤ 57 then some (c.toNat - 48)
  else if 97 ≤ c.toNat ∧ c.toNat ≤ 102 then some (c.toNat - 87)
  else if 65 ≤ c.toNat ∧ c.toNat ≤ 70 then some (c.toNat - 55)
  else none

/-- Reference JSON string-literal reader, used to state that the escaped
text is embedded in the payload envelope without corruption: starting
after an opening quote, read up to the matching unescaped closing quote,
returning the decoded text and the remainder of the input after the
literal.  It understands exactly the escapes a JSON reader accepts. -/
def decodeBody : List Char → Option (List Char × List Char)
  | [] => none
  | c :: rest =>
    if c = '"' then some ([], rest)
    else if c = '\\' then
      match rest with
      | [] => none
      | e :: rest2 =>
        if e = '"' then (decodeBody rest2).map (fun p => ('"' :: p.1, p.2))
        else if e = '\\' then (decodeBody rest2).map (fun p => ('\\' :: p.1, p.2))
        else if e = '/' then (decodeBody rest2).map (fun p => ('/' :: p.1, p.2))
        else if e = 'n' then (decodeBody rest2).map (fun p => ('\n' :: p.1, p.2))
        else if e = 'r' then (decodeBody rest2).map (fun p => ('\r' :: p.1, p.2))
        else if e = 't' then (decodeBody rest2).map (fun p => ('\t' :: p.1, p.2))
        else if e = 'b' then (decodeBody rest2).map (fun p => (Char.ofNat 8 :: p.1, p.2))
        else if e = 'f' then (decodeBody rest2).map (fun p => (Char.ofNat 12 :: p.1, p.2))
        else if e = 'u' then
          match rest2 with
          | h1 :: h2 :: h3 :: h4 :: rest3 =>
            match hexDigitVal h1, hexDigitVal h2, hexDigitVal h3, hexDigitVal h4 with
            | some v1, some v2, some v3, some v4 =>
              (decodeBody rest3).map
                (fun p => (Char.ofNat (((v1 * 16 + v2) * 16 + v3) * 16 + v4) :: p.1, p.2))
            | _, _, _, _ => none
          | _ => none
        else none
    else (decodeBody rest).map (fun p => (c :: p.1, p.2))

/-- Read one JSON string literal (opening quote included) from the start
of the input. -/
def decodeJSONStringAt : List Char → Option (List Char × List Char)
  | '"' :: body => decodeBody body
  | _ => none

/-! The `fmt.Sprintf` templates of `SequenceCommand` (client.go lines
278-333), split at their `%s` holes.  `\x7b`/`\x7d` denote the literal
braces of the Go source's raw string literals. -/

/-- Speak template up to the `deviceType` hole. -/
def spkT0 : String := "\x7b\n\t\t\t\"@type\": \"com.amazon.alexa.behaviors.model.Sequence\",\n\t\t\t\"startNode\": \x7b\n\t\t\t\t\"@type\": \"com.amazon.alexa.behaviors.model.OpaquePayloadOperationNode\",\n\t\t\t\t\"type\": \"Alexa.Speak\",\n\t\t\t\t\"operationPayload\": \x7b\n\t\t\t\t\t\"deviceType\": \""

/-- Between the `deviceType` and `deviceSerialNumber` holes (shared by the
speak and textcommand templates). -/
def spkT1 : String := "\",\n\t\t\t\t\t\"deviceSerialNumber\": \""

/-- Between the `deviceSerialNumber` and `customerId` holes (shared by the
speak and textcommand templates). -/
def spkT2 : String := "\",\n\t\t\t\t\t\"customerId\": \""

/-- Between the `customerId` hole and the `textToSpeak` hole. -/
def spkT3 : String := "\",\n\t\t\t\t\t\"locale\": \"en-US\",\n\t\t\t\t\t\"textToSpeak\": "

/-- Closing braces after the `textToSpeak` hole (also the tail of the
textcommand template). -/
def spkT4 : String := "\n\t\t\t\t\x7d\n\t\t\t\x7d\n\t\t\x7d"

/-- Announcement template up to the first `mustJSON(text)` hole. -/
def annT0 : String := "\x7b\n\t\t\t\"@type\": \"com.amazon.alexa.behaviors.model.Sequence\",\n\t\t\t\"startNode\": \x7b\n\t\t\t\t\"@type\": \"com.amazon.alexa.behaviors.model.OpaquePayloadOperationNode\",\n\t\t\t\t\"type\": \"AlexaAnnouncement\",\n\t\t\t\t\"operationPayload\": \x7b\n\t\t\t\t\t\"expireAfter\": \"PT5S\",\n\t\t\t\t\t\"content\": [\x7b\n\t\t\t\t\t\t\"locale\": \"en-US\",\n\t\t\t\t\t\t\"display\": \x7b\"title\": \"Announcement\", \"body\": "

/-- Between the two `mustJSON(text)` holes of the announcement template. -/
def annT1 : String := "\x7d,\n\t\t\t\t\t\t\"speak\": \x7b\"type\": \"text\", \"value\": "

/-- Between the second `mustJSON(text)` hole and the `customerId` hole. -/
def annT2 : String := "\x7d\n\t\t\t\t\t\x7d],\n\t\t\t\t\t\"target\": \x7b\n\t\t\t\t\t\t\"customerId\": \""

/-- Closing part of the announcement template. -/
def annT3 : String := "\"\n\t\t\t\t\t\x7d\n\t\t\t\t\x7d\n\t\t\t\x7d\n\t\t\x7d"

/-- Textcommand template up to the `deviceType` hole. -/
def txtT0 : String := "\x7b\n\t\t\t\"@type\": \"com.amazon.alexa.behaviors.model.Sequence\",\n\t\t\t\"startNode\": \x7b\n\t\t\t\t\"@type\": \"com.amazon.alexa.behaviors.model.OpaquePayloadOperationNode\",\n\t\t\t\t\"type\": \"Alexa.TextCommand\",\n\t\t\t\t\"skillId\": \"amzn1.ask.1p.tellalexa\",\n\t\t\t\t\"operationPayload\": \x7b\n\t\t\t\t\t\"deviceType\": \""

/-- Between the `customerId` hole and the `text` hole of the textcommand
template. -/
def txtT3 : String := "\",\n\t\t\t\t\t\"text\": "

/-- The `sequenceJson` of the `speak:` branch (client.go lines 278-291). -/
def speakSequenceJson (deviceType serial customerID text : List Char) : List Char :=
  strL spkT0 ++ deviceType ++ strL spkT1 ++ serial ++ strL spkT2 ++ customerID ++
    strL spkT3 ++ goEncodeString text ++ strL spkT4

/-- The `sequenceJson` of the `announcement:` branch (client.go lines
297-314). -/
def announcementSequenceJson (customerID text : List Char) : List Char :=
  strL annT0 ++ goEncodeString text ++ strL annT1 ++ goEncodeString text ++
    strL annT2 ++ customerID ++ strL annT3

/-- The `sequenceJson` of the `textcommand:` branch (client.go lines
320-333). -/
def textcommandSequenceJson (deviceType serial customerID text : List Char) : List Char :=
  strL txtT0 ++ deviceType ++ strL spkT1 ++ serial ++ strL spkT2 ++ customerID ++
    strL txtT3 ++ goEncodeString text ++ strL spkT4

/-- The `Device` struct of client.go (lines 231-239). -/
structure DeviceM where
  accountName : List Char
  serialNumber : List Char
  deviceType : List Char
  deviceFamily : List Char
  deviceOwnerCustomerID : List Char
  online : Bool
  capabilities : List (List Char)
deriving DecidableEq

/-- The remote effect requested by `SequenceCommand`: either a POST of
`{behaviorId: "PREVIEW", sequenceJson, status: "ENABLED"}` to
`/api/behaviors/preview` carrying the given `sequenceJson`, or the
delegation to `ExecuteRoutine` with the given routine name. -/
inductive SeqAction where
  | post : List Char → SeqAction
  | runRoutine : List Char → SeqAction
deriving DecidableEq

/-- `Client.SequenceCommand` (client.go lines 264-352) up to its remote
call: returns the session's customer id after the call (lines 266-268
cache it from the device when empty — this happens before the command
prefix switch) together with the requested remote action; `none` is the
"unknown command type" error of line 341, on which no remote call is
made. -/
def sequenceCommandModel (customerID : List Char) (device : DeviceM)
    (command : List Char) : List Char × Option SeqAction :=
  let cid := if customerID = [] then device.deviceOwnerCustomerID else customerID
  if listStarts command (strL "speak:") then
    let text := goTrimQuotes (command.drop 6)
    (cid, some (.post (speakSequenceJson device.deviceType device.serialNumber cid text)))
  else if listStarts command (strL "announcement:") then
    let text := goTrimQuotes (command.drop 13)
    (cid, some (.post (announcementSequenceJson cid text)))
  else if listStarts command (strL "textcommand:") then
    let text := goTrimQuotes (command.drop 12)
    (cid, some (.post (textcommandSequenceJson device.deviceType device.serialNumber cid text)))
  else if listStarts command (strL "automation:") then
    (cid, some (.runRoutine (goTrimQuotes (command.drop 11))))
  else (cid, none)

/-! ## Routines (C5) -/

/-- The `Routine` struct of client.go (lines 388-392): `sequence` is the
raw pre-built execution payload, kept verbatim as raw JSON text. -/
structure Routine where
  automationID : List Char
  name : List Char
  sequence : List Char
deriving DecidableEq

/-- The execution POST issued by `ExecuteRoutine` (client.go lines
377-384): `{behaviorId, sequenceJson, status}` to `/api/behaviors/preview`. -/
structure ExecCall where
  behaviorId : List Char
  sequenceJson : List Char
  status : List Char
deriving DecidableEq

/-- The routine lookup loop of `ExecuteRoutine` (client.go lines 363-370):
first routine whose lowercased name equals the lowercased requested name. -/
def findRoutineGo (routines : List Routine) (nameLower : List Char) : Option Routine :=
  routines.find? (fun r => goToLower r.name == nameLower)

/-- `Client.ExecuteRoutine` (client.go lines 355-385) given the fetched
routine list: `none` is the `routine not found` error of line 373 (no
execution POST is issued); otherwise the execution POST replays the
stored sequence verbatim with status `ENABLED`. -/
def executeRoutineModel (routines : List Routine) (routineName : List Char) :
    Option ExecCall :=
  match findRoutineGo routines (goToLower routineName) with
  | none => none
  | some r => some ⟨r.automationID, r.sequence, strL "ENABLED"⟩

/-! ## Credential exchange and CSRF acquisition (C7) -/

/-- One cookie of the token-exchange response (client.go lines 92-95). -/
structure ExchangeCookie where
  name : List Char
  value : List Char
deriving DecidableEq

/-- The `name=value` fragment contributed by one cookie (client.go line
109). -/
def cookiePart (ck : ExchangeCookie) : List Char := ck.name ++ '=' :: ck.value

/-- Go `strings.Join(parts, sep)`. -/
def joinSep (sep : List Char) : List (List Char) → List Char
  | [] => []
  | [x] => x
  | x :: y :: rest => x ++ sep ++ joinSep sep (y :: rest)

/-- The cookie header blob built by `authenticate` (client.go lines
104-112) from the cookies of the exchange response (flattened over the
per-domain map in iteration order). -/
def buildCookieBlob (cookies : List ExchangeCookie) : List Char :=
  joinSep (strL "; ") (cookies.map cookiePart)

/-- Split off everything before the first occurrence of `"; "`, together
with the remainder after it; `none` when the separator does not occur. -/
def breakSemi : List Char → Option (List Char × List Char)
  | [] => none
  | c :: t =>
    if listStarts (c :: t) (strL "; ") then some ([], t.drop 1)
    else
      match breakSemi t with
      | some (pre, post) => some (c :: pre, post)
      | none => none

/-- Fueled worker for `strings.Split(s, "; ")`; the input length bounds
the number of separator occurrences. -/
def splitSemiF : Nat → List Char → List (List Char)
  | 0, s => [s]
  | fuel + 1, s =>
    match breakSemi s with
    | none => [s]
    | some (pre, post) => pre :: splitSemiF fuel post

/-- Go `strings.Split(s, "; ")`. -/
def splitSemi (s : List Char) : List (List Char) := splitSemiF s.length s

/-- `Client.fetchCSRF` (client.go lines 127-164) given the CSRF-probe
response cookies: take the value of a response cookie named `csrf`
(appending `"; csrf=..."` to the session cookie blob), else fall back to
a `csrf=` entry already present in the blob; `none` is the "CSRF token
not found" error of line 163.  Returns the token and the resulting
session cookie blob. -/
def fetchCSRFModel (blob : List Char) (respCookies : List ExchangeCookie) :
    Option (List Char × List Char) :=
  match respCookies.find? (fun ck => ck.name == strL "csrf") with
  | some ck => some (ck.value, blob ++ strL "; csrf=" ++ ck.value)
  | none =>
    match (splitSemi blob).find? (fun part => listStarts part (strL "csrf=")) with
    | some part => some (part.drop 5, blob)
    | none => none

/-- `Client.authenticate` (client.go lines 59-124) given the exchange
response status, its parsed cookie list, and the CSRF-probe response
cookies.  `none` is the `AuthError` family: non-200 exchange status
(line 84-87), an empty cookie blob (lines 114-116), or CSRF acquisition
failure (lines 119-121).  On success, returns the CSRF token and the
final session cookie blob. -/
def authenticateModel (status : Nat) (cookies : List ExchangeCookie)
    (respCookies : List ExchangeCookie) : Option (List Char × List Char) :=
  if status ≠ 200 then none
  else
    let blob := buildCookieBlob cookies
    if blob = [] then none
    else fetchCSRFModel blob respCookies

/-! ## Activity-CSRF extraction (C8)

`fetchActivityCSRF` (client.go lines 513-572) applies 4 regular
expressions in order to the activity page body and takes the first
match's capture group.  The matchers below specialise each pattern;
`scanFirst` is `FindStringSubmatch`'s leftmost scan. -/

/-- Literal head of pattern 1, `<meta name="csrf-token" content="` (the
capture's opening quote is part of the literal). -/
def lit1 : List Char := strL "<meta name=\"csrf-token\" content=\""

/-- Literal head of pattern 2, `data-csrf="`. -/
def lit2 : List Char := strL "data-csrf=\""

/-- Literal head of pattern 3, `"csrfToken"`. -/
def lit3 : List Char := strL "\"csrfToken\""

/-- Literal head of pattern 4, `anti-csrftoken-a2z`. -/
def lit4 : List Char := strL "anti-csrftoken-a2z"

/-- Pattern 1 (`<meta name="csrf-token" content="([^"]+)"`) matched at the
start of the input. -/
def pat1MatchAt (s : List Char) : Option (List Char) :=
  match litAt lit1 s with
  | some r => captureToQuote r
  | none => none

/-- Pattern 2 (`data-csrf="([^"]+)"`) matched at the start of the input. -/
def pat2MatchAt (s : List Char) : Option (List Char) :=
  match litAt lit2 s with
  | some r => captureToQuote r
  | none => none

/-- Pattern 3 (`"csrfToken"\s*:\s*"([^"]+)"`) matched at the start of the
input. -/
def pat3MatchAt (s : List Char) : Option (List Char) :=
  match litAt lit3 s with
  | none => none
  | some r1 =>
    match r1.dropWhile isGoWs with
    | ':' :: r2 =>
      match r2.dropWhile isGoWs with
      | '"' :: r3 => captureToQuote r3
      | _ => none
    | _ => none

/-- The character class `['":\s]` of pattern 4. -/
def isP4Class (c : Char) : Bool :=
  c = '"' || c = Char.ofNat 39 || c = ':' || isGoWs c

/-- Either quote character, the class `['"]` of pattern 4. -/
def isAnyQuote (c : Char) : Bool := c = '"' || c = Char.ofNat 39

/-- Match `([^'"]+)['"]` at the start of the input. -/
def captureToAnyQuote (s : List Char) : Option (List Char) :=
  let cap := s.takeWhile (fun c => !(isAnyQuote c))
  if cap = [] then none
  else
    match s.drop cap.length with
    | c :: _ => if isAnyQuote c then some cap else none
    | [] => none

/-- Backtracking tail of pattern 4 after the literal: with `k` the number
of characters consumed by the greedy `['":\s]+`, require a quote at index
`k` followed by `([^'"]+)['"]`; on failure retry with `k - 1`, down to
`k = 1`.  Called with `k` the length of the maximal class run, exactly
RE2's preference order for this pattern. -/
def pat4Try (r : List Char) : Nat → Option (List Char)
  | 0 => none
  | k + 1 =>
    match r.drop (k + 1) with
    | c :: after =>
      if isAnyQuote c then
        match captureToAnyQuote after with
        | some cap => some cap
        | none => pat4Try r k
      else pat4Try r k
    | [] => pat4Try r k

/-- Pattern 4 (`anti-csrftoken-a2z['":\s]+['"]([^'"]+)['"]`) matched at
the start of the input. -/
def pat4MatchAt (s : List Char) : Option (List Char) :=
  match litAt lit4 s with
  | none => none
  | some r => pat4Try r (r.takeWhile isP4Class).length

/-- `FindStringSubmatch`: the given match-at-start function applied at
each position from the left, first success wins. -/
def scanFirst (p : List Char → Option (List Char)) : List Char → Option (List Char)
  | [] => none
  | c :: t =>
    match p (c :: t) with
    | some v => some v
    | none => scanFirst p t

/-- `Client.fetchActivityCSRF` (client.go lines 513-572) given the
activity page body: the first of the four patterns that matches anywhere
in the body determines the token; `none` is the "activity CSRF token not
found in page" `ProtocolError` of line 571. -/
def fetchActivityCSRFModel (body : List Char) : Option (List Char) :=
  match scanFirst pat1MatchAt body with
  | some v => some v
  | none =>
    match scanFirst pat2MatchAt body with
    | some v => some v
    | none =>
      match scanFirst pat3MatchAt body with
      | some v => some v
      | none =>
        match scanFirst pat4MatchAt body with
        | some v => some v
        | none => none

/-! ## Helper lemmas -/

/-- `listStarts s s` always holds: a string starts with itself. -/
theorem listStarts_self (s : List Char) : listStarts s s = true := by
  induction s with
  | nil => rfl
  | cons c t ih => simp [listStarts, ih]

/-- A string contains itself (`strings.Contains s s = true`). -/
theorem goContains_self (s : List Char) : goContains s s = true := by
  cases s with
  | nil => rfl
  | cons c t => simp [goContains, listStarts_self]

/-- If the generic loop returns a result, some polled iteration's attempt
produced exactly that result. -/
theorem pollLoopF_some {attempt : Nat → Option (List Char)} :
    ∀ (fuel now endTime : Nat) (r : List Char),
      pollLoopF attempt fuel now endTime = some r →
      ∃ t ∈ pollTimesF fuel now endTime, attempt t = some r := by
  intro fuel
  induction fuel with
  | zero => intro now endTime r h; simp [pollLoopF] at h
  | succ fuel ih =>
    intro now endTime r h
    rw [pollLoopF] at h
    by_cases hlt : now < endTime
    · rw [if_pos hlt] at h
      rw [pollTimesF, if_pos hlt]
      cases ha : attempt (now + 500) with
      | some v =>
        rw [ha] at h
        cases h
        exact ⟨now + 500, by simp, ha⟩
      | none =>
        rw [ha] at h
        obtain ⟨t, ht, hat⟩ := ih (now + 500) endTime r h
        exact ⟨t, by simp [ht], hat⟩
    · rw [if_neg hlt] at h; cases h

/-- The generic loop exhausts its deadline (returns `none`) exactly when
no polled iteration's attempt produces a result. -/
theorem pollLoopF_none_iff {attempt : Nat → Option (List Char)} :
    ∀ (fuel now endTime : Nat),
      pollLoopF attempt fuel now endTime = none ↔
      ∀ t ∈ pollTimesF fuel now endTime, attempt t = none := by
  intro fuel
  induction fuel with
  | zero => intro now endTime; simp [pollLoopF, pollTimesF]
  | succ fuel ih =>
    intro now endTime
    rw [pollLoopF, pollTimesF]
    by_cases hlt : now < endTime
    · rw [if_pos hlt, if_pos hlt]
      cases ha : attempt (now + 500) with
      | some v => simp [ha]
      | none => simp [ha, ih (now + 500) endTime]
    · rw [if_neg hlt, if_neg hlt]; simp

/-- If `askScan` accepts a record, that record is in the list and passes
every filter of the loop body. -/
theorem askScan_some {serial question : List Char} {startTime : Int} :
    ∀ (recs : List HistoryRecord) (reply : List Char),
      askScan serial question startTime recs = some reply →
      ∃ r ∈ recs,
        goContains r.recordKey serial = true ∧
        startTime ≤ r.timestamp ∧
        r.customerUtterance ≠ [] ∧
        goContains (goToLower r.customerUtterance) (goToLower (question.take 20)) = true ∧
        r.alexaResponse ≠ [] ∧
        r.alexaResponse = reply := by
  intro recs
  induction recs with
  | nil => intro reply h; simp [askScan] at h
  | cons r rs ih =>
    intro reply h
    rw [askScan] at h
    by_cases hc :
        (goContains r.recordKey serial
          && decide (startTime ≤ r.timestamp)
          && decide (r.customerUtterance ≠ [])
          && goContains (goToLower r.customerUtterance) (goToLower (question.take 20))
          && decide (r.alexaResponse ≠ [])) = true
    · rw [if_pos hc] at h
      cases h
      simp only [Bool.and_eq_true, decide_eq_true_eq] at hc
      exact ⟨r, by simp, hc.1.1.1.1, hc.1.1.1.2, hc.1.1.2, hc.1.2, hc.2, rfl⟩
    · rw [if_neg hc] at h
      obtain ⟨r', hr', hprops⟩ := ih reply h
      exact ⟨r', by simp [hr'], hprops⟩

/-- An accepted fragment yields a non-empty reply: appending attribution
lines preserves non-emptiness of the accumulator. -/
theorem fragResult_ne_nil (items : List FragmentItem) :
    ∀ text : List Char, text ≠ [] → fragResult text items ≠ [] := by
  induction items with
  | nil => intro text h; simpa [fragResult] using h
  | cons it its ih =>
    intro text h
    rw [fragResult, List.foldl_cons]
    by_cases hs : it.style = strL "text-style-attribution"
    · rw [if_pos hs]
      exact ih (text ++ '\n' :: it.text) (by simp)
    · rw [if_neg hs]
      exact ih text h

/-- A `fragScan` result is non-empty. -/
theorem fragScan_some_ne_nil :
    ∀ (frags : List ConversationFragment) (s : List Char),
      fragScan frags = some s → s ≠ [] := by
  intro frags
  induction frags with
  | nil => intro s h; simp [fragScan] at h
  | cons f fs ih =>
    intro s h
    rw [fragScan] at h
    by_cases hc : fragText f ≠ [] ∧
        (f.purpose = strL "AGENT" ∨ goContains f.fragmentURI (strL "LLM:APE") = true)
    · rw [if_pos hc] at h
      cases h
      exact fragResult_ne_nil (fragItems f) (fragText f) hc.1
    · rw [if_neg hc] at h
      exact ih s h

/-- Matching a literal against itself followed by anything succeeds and
returns the remainder. -/
theorem litAt_append (lit : List Char) : ∀ rest : List Char, litAt lit (lit ++ rest) = some rest := by
  induction lit with
  | nil => intro rest; rfl
  | cons l ls ih => intro rest; simp [litAt, ih]

/-- `takeWhile` passes over a block that satisfies the predicate. -/
theorem takeWhile_app (p : Char → Bool) :
    ∀ l1 l2 : List Char, (∀ c ∈ l1, p c = true) →
      (l1 ++ l2).takeWhile p = l1 ++ l2.takeWhile p := by
  intro l1
  induction l1 with
  | nil => intro l2 _; rfl
  | cons c cs ih =>
    intro l2 h
    have hc : p c = true := h c (by simp)
    rw [List.cons_append, List.takeWhile_cons_of_pos hc,
      ih l2 (fun c' hc' => h c' (by simp [hc'])), List.cons_append]

/-- If the matcher succeeds at some position, the leftmost scan succeeds
(possibly at an earlier position). -/
theorem scanFirst_isSome (p : List Char → Option (List Char)) :
    ∀ (pre s : List Char) (v : List Char), s ≠ [] → p s = some v →
      (scanFirst p (pre ++ s)).isSome := by
  intro pre
  induction pre with
  | nil =>
    intro s v hs hp
    cases s with
    | nil => exact absurd rfl hs
    | cons c t => simp [scanFirst, hp]
  | cons c cs ih =>
    intro s v hs hp
    rw [List.cons_append, scanFirst]
    cases hq : p (c :: (cs ++ s)) with
    | some w => simp
    | none => exact ih s v hs hp

/-- The model fails exactly when all four pattern scans fail. -/
theorem fetchActivityCSRFModel_none_iff (body : List Char) :
    fetchActivityCSRFModel body = none ↔
      scanFirst pat1MatchAt body = none ∧ scanFirst pat2MatchAt body = none ∧
      scanFirst pat3MatchAt body = none ∧ scanFirst pat4MatchAt body = none := by
  rw [fetchActivityCSRFModel]
  cases h1 : scanFirst pat1MatchAt body with
  | some v => simp [h1]
  | none =>
    cases h2 : scanFirst pat2MatchAt body with
    | some v => simp [h2]
    | none =>
      cases h3 : scanFirst pat3MatchAt body with
      | some v => simp [h3]
      | none =>
        cases h4 : scanFirst pat4MatchAt body with
        | some v => simp [h4]
        | none => simp

/-- `captureToQuote` on a quote-free non-empty block followed by a quote
captures exactly the block. -/
theorem captureToQuote_inst (tok post : List Char) (hne : tok ≠ [])
    (hq : ∀ c ∈ tok, c ≠ '"') :
    captureToQuote (tok ++ '"' :: post) = some tok := by
  have hp : ∀ c ∈ tok, (!(c = '"' : Bool)) = true := by
    intro c hc; simpa using hq c hc
  rw [captureToQuote]
  simp only [takeWhile_app _ tok ('"' :: post) hp]
  have : List.takeWhile (fun c => !(c = '"' : Bool)) ('"' :: post) = [] := by
    simp [List.takeWhile_cons]
  rw [this, List.append_nil]
  rw [if_neg hne]
  have hdrop : (tok ++ '"' :: post).drop tok.length = '"' :: post := List.drop_left tok _
  simp [hdrop]

/-- Pattern 1 matches its canonical instance at the start of the input. -/
theorem pat1MatchAt_inst (tok post : List Char) (hne : tok ≠ [])
    (hq : ∀ c ∈ tok, c ≠ '"') :
    pat1MatchAt (lit1 ++ (tok ++ '"' :: post)) = some tok := by
  rw [pat1MatchAt, litAt_append]
  exact captureToQuote_inst tok post hne hq

/-- Pattern 2 matches its canonical instance at the start of the input. -/
theorem pat2MatchAt_inst (tok post : List Char) (hne : tok ≠ [])
    (hq : ∀ c ∈ tok, c ≠ '"') :
    pat2MatchAt (lit2 ++ (tok ++ '"' :: post)) = some tok := by
  rw [pat2MatchAt, litAt_append]
  exact captureToQuote_inst tok post hne hq

/-- Pattern 3 matches its canonical (whitespace-free) instance at the
start of the input. -/
theorem pat3MatchAt_inst (tok post : List Char) (hne : tok ≠ [])
    (hq : ∀ c ∈ tok, c ≠ '"') :
    pat3MatchAt (lit3 ++ (':' :: '"' :: (tok ++ '"' :: post))) = some tok := by
  have h1 : List.dropWhile isGoWs (':' :: '"' :: (tok ++ '"' :: post))
      = ':' :: '"' :: (tok ++ '"' :: post) := by
    rw [List.dropWhile_cons_of_neg]
    simp [isGoWs]
  have h2 : List.dropWhile isGoWs ('"' :: (tok ++ '"' :: post))
      = '"' :: (tok ++ '"' :: post) := by
    rw [List.dropWhile_cons_of_neg]
    simp [isGoWs]
  simp only [pat3MatchAt, litAt_append, h1, h2]
  exact captureToQuote_inst tok post hne hq

/-- A character outside the `['":\s]` class is not a quote. -/
theorem not_anyQuote_of_not_p4 {c : Char} (h : isP4Class c = false) :
    isAnyQuote c = false := by
  rw [isP4Class] at h
  rw [isAnyQuote]
  rcases Bool.or_eq_false_iff.mp h with ⟨h1, h2⟩
  rcases Bool.or_eq_false_iff.mp h1 with ⟨h3, h4⟩
  rcases Bool.or_eq_false_iff.mp h3 with ⟨h5, h6⟩
  simp only [h5, h6, Bool.or_false]

/-- `captureToAnyQuote` on a quote-free non-empty block followed by a
quote captures exactly the block. -/
theorem captureToAnyQuote_inst (tok post : List Char) (hne : tok ≠ [])
    (hq : ∀ c ∈ tok, isAnyQuote c = false) :
    captureToAnyQuote (tok ++ '"' :: post) = some tok := by
  have hp : ∀ c ∈ tok, (!(isAnyQuote c)) = true := by
    intro c hc; simp [hq c hc]
  rw [captureToAnyQuote]
  simp only [takeWhile_app _ tok ('"' :: post) hp]
  have : List.takeWhile (fun c => !(isAnyQuote c)) ('"' :: post) = [] := by
    simp [List.takeWhile_cons, isAnyQuote]
  rw [this, List.append_nil]
  rw [if_neg hne]
  have hdrop : (tok ++ '"' :: post).drop tok.length = '"' :: post := List.drop_left tok _
  simp [hdrop, isAnyQuote]

/-- Pattern 4 matches its canonical instance (`: "tok"`) at the start of
the input. -/
theorem pat4MatchAt_inst (tok post : List Char) (hne : tok ≠ [])
    (hcl : ∀ c ∈ tok, isP4Class c = false) :
    pat4MatchAt (lit4 ++ (':' :: ' ' :: '"' :: (tok ++ '"' :: post))) = some tok := by
  obtain ⟨c0, tok', rfl⟩ : ∃ c0 tok', tok = c0 :: tok' := by
    cases tok with
    | nil => exact absurd rfl hne
    | cons a b => exact ⟨a, b, rfl⟩
  have hc0 : isP4Class c0 = false := hcl c0 (by simp)
  have hc0q : isAnyQuote c0 = false := not_anyQuote_of_not_p4 hc0
  have hcap : captureToAnyQuote (c0 :: (tok' ++ '"' :: post)) = some (c0 :: tok') := by
    have := captureToAnyQuote_inst (c0 :: tok') post hne
      (fun c hc => not_anyQuote_of_not_p4 (hcl c hc))
    simpa [List.cons_append] using this
  have hrun : List.takeWhile isP4Class (':' :: ' ' :: '"' :: (c0 :: (tok' ++ '"' :: post)))
      = [':', ' ', '"'] := by
    have hcolon : isP4Class ':' = true := by decide
    have hspace : isP4Class ' ' = true := by decide
    have hquote : isP4Class '"' = true := by decide
    rw [List.takeWhile_cons_of_pos hcolon, List.takeWhile_cons_of_pos hspace,
      List.takeWhile_cons_of_pos hquote, List.takeWhile_cons_of_neg (by simp [hc0])]
  have e1 : pat4Try (':' :: ' ' :: '"' :: (c0 :: (tok' ++ '"' :: post))) 3
      = pat4Try (':' :: ' ' :: '"' :: (c0 :: (tok' ++ '"' :: post))) 2 := by
    rw [show (3 : Nat) = 2 + 1 from rfl, pat4Try]
    have hd : (':' :: ' ' :: '"' :: (c0 :: (tok' ++ '"' :: post))).drop (2 + 1)
        = c0 :: (tok' ++ '"' :: post) := rfl
    rw [hd]
    simp [hc0q]
  have e2 : pat4Try (':' :: ' ' :: '"' :: (c0 :: (tok' ++ '"' :: post))) 2
      = some (c0 :: tok') := by
    rw [show (2 : Nat) = 1 + 1 from rfl, pat4Try]
    have hd : (':' :: ' ' :: '"' :: (c0 :: (tok' ++ '"' :: post))).drop (1 + 1)
        = '"' :: (c0 :: (tok' ++ '"' :: post)) := rfl
    rw [hd]
    have hq2 : isAnyQuote '"' = true := by decide
    simp only [hq2, if_true, hcap]
  simp only [pat4MatchAt, litAt_append, List.cons_append, hrun]
  show pat4Try (':' :: ' ' :: '"' :: (c0 :: (tok' ++ '"' :: post))) 3 = some (c0 :: tok')
  rw [e1, e2]

/-- A lowercase hex digit emitted by the encoder decodes to its value. -/
theorem hexVal_hexChar : ∀ k : Fin 16, hexDigitVal (hexDigitChar k.val) = some k.val := by
  decide

/-- Version of `hexVal_hexChar` over `Nat` with an explicit bound. -/
theorem hexVal_hexChar' (k : Nat) (hk : k < 16) : hexDigitVal (hexDigitChar k) = some k :=
  hexVal_hexChar ⟨k, hk⟩

/-- Decoding a `\u`-escape emitted for a scalar below 0x10000 recovers it. -/
theorem decodeBody_hex4 (n : Nat) (hn : n < 65536) (tail : List Char) :
    decodeBody ('\\' :: 'u' :: (hex4 n ++ tail))
      = (decodeBody tail).map (fun p => (Char.ofNat n :: p.1, p.2)) := by
  have e1 := hexVal_hexChar' (n / 4096 % 16) (Nat.mod_lt _ (by norm_num))
  have e2 := hexVal_hexChar' (n / 256 % 16) (Nat.mod_lt _ (by norm_num))
  have e3 := hexVal_hexChar' (n / 16 % 16) (Nat.mod_lt _ (by norm_num))
  have e4 := hexVal_hexChar' (n % 16) (Nat.mod_lt _ (by norm_num))
  have harith : ((n / 4096 % 16 * 16 + n / 256 % 16) * 16 + n / 16 % 16) * 16 + n % 16 = n := by
    omega
  simp only [hex4, List.cons_append, List.nil_append]
  rw [decodeBody.eq_def]
  simp [e1, e2, e3, e4, harith]

/-- Decoding one encoded character from the front of the stream peels
exactly that character. -/
theorem decodeBody_escape (c : Char) (tail : List Char) :
    decodeBody (goEscapeChar c ++ tail)
      = (decodeBody tail).map (fun p => (c :: p.1, p.2)) := by
  rw [goEscapeChar]
  by_cases h1 : c = '"'
  · subst h1; rw [decodeBody.eq_def]; rfl
  rw [if_neg h1]
  by_cases h2 : c = '\\'
  · subst h2; rw [decodeBody.eq_def]; rfl
  rw [if_neg h2]
  by_cases h3 : c = '\n'
  · subst h3; rw [decodeBody.eq_def]; rfl
  rw [if_neg h3]
  by_cases h4 : c = '\r'
  · subst h4; rw [decodeBody.eq_def]; rfl
  rw [if_neg h4]
  by_cases h5 : c = '\t'
  · subst h5; rw [decodeBody.eq_def]; rfl
  rw [if_neg h5]
  by_cases h6 : c.toNat < 32 ∨ c = '<' ∨ c = '>' ∨ c = '&' ∨ c.toNat = 8232 ∨ c.toNat = 8233
  · rw [if_pos h6]
    have hn : c.toNat < 65536 := by
      rcases h6 with h | h | h | h | h | h
      · omega
      · subst h; decide
      · subst h; decide
      · subst h; decide
      · omega
      · omega
    have hu := decodeBody_hex4 c.toNat hn tail
    rw [show ('\\' :: 'u' :: hex4 c.toNat) ++ tail = '\\' :: 'u' :: (hex4 c.toNat ++ tail) from
      by simp]
    rw [hu, Char.ofNat_toNat]
  · rw [if_neg h6]
    simp only [List.cons_append, List.nil_append]
    rw [decodeBody.eq_def]
    simp only [if_neg h1, if_neg h2]

/-- Decoding the full encoded body followed by the closing quote and any
remainder recovers the original text and remainder. -/
theorem decodeBody_escBody (s : List Char) :
    ∀ tail : List Char, decodeBody (escBody s ++ '"' :: tail) = some (s, tail) := by
  induction s with
  | nil =>
    intro tail
    rw [show escBody [] ++ '"' :: tail = '"' :: tail from rfl, decodeBody.eq_def]
    simp
  | cons c s ih =>
    intro tail
    rw [escBody, List.append_assoc, decodeBody_escape, ih tail]
    rfl

/-- Reading a JSON string literal positioned at the front of a larger
document recovers exactly the encoded text and leaves the remainder of
the document intact: the escaped text never terminates the literal
early. -/
theorem decodeJSONStringAt_encode (s rest : List Char) :
    decodeJSONStringAt (goEncodeString s ++ rest) = some (s, rest) := by
  rw [goEncodeString]
  rw [show ('"' :: escBody s ++ ['"']) ++ rest = '"' :: (escBody s ++ '"' :: rest) from by simp]
  exact decodeBody_escBody s rest

/-- A non-empty selection of the AVS match loop is one of the matches, it
does not contain the input text, and the raw body carries an agent
marker. -/
theorem avsSelectText_spec (input raw : List Char) :
    ∀ (ms : List (List Char)) (i : Nat),
      avsSelectText input raw ms i ≠ [] →
      avsSelectText input raw ms i ∈ ms ∧
      goContains (avsSelectText input raw ms i) input = false ∧
      (goContains raw (strL "LLM:APE") = true ∨
        goContains raw (strL "\"purpose\":\"AGENT\"") = true) := by
  intro ms
  induction ms with
  | nil => intro i h; simp [avsSelectText] at h
  | cons m ms ih =>
    intro i h
    rw [avsSelectText] at h ⊢
    by_cases hc : (decide (i > 0) && !(goContains m input) &&
        (goContains raw (strL "LLM:APE") || goContains raw (strL "\"purpose\":\"AGENT\""))) = true
    · rw [if_pos hc] at h ⊢
      simp only [Bool.and_eq_true, Bool.or_eq_true, Bool.not_eq_true'] at hc
      exact ⟨by simp, hc.1.2, hc.2⟩
    · rw [if_neg hc] at h ⊢
      obtain ⟨hm, hrest⟩ := ih (i + 1) h
      exact ⟨by simp [hm], hrest⟩

/-- A cookie always contributes a non-empty `name=value` fragment. -/
theorem cookiePart_ne_nil (ck : ExchangeCookie) : cookiePart ck ≠ [] := by
  rw [cookiePart]
  cases ck.name <;> simp

/-- The cookie blob of a non-empty cookie list is non-empty. -/
theorem buildCookieBlob_ne_nil (cookies : List ExchangeCookie) (h : cookies ≠ []) :
    buildCookieBlob cookies ≠ [] := by
  cases cookies with
  | nil => exact absurd rfl h
  | cons ck rest =>
    rw [buildCookieBlob, List.map_cons]
    cases hrest : rest.map cookiePart with
    | nil => rw [joinSep]; exact cookiePart_ne_nil ck
    | cons y ys =>
      rw [joinSep]
      intro hnil
      exact cookiePart_ne_nil ck (by
        have := congrArg (List.take (cookiePart ck).length) hnil
        cases hcp : cookiePart ck with
        | nil => rfl
        | cons a as => simp [hcp] at hnil)

/-! ## Claim theorems -/

/-- C1: Whenever the `Ask` polling phase returns a reply, it comes from a
record of some poll whose composite record key contains the device
serial, whose timestamp is at least the recorded lower bound (issue time
minus the 1-second buffer), and whose recognised utterance contains,
case-insensitively, the first 20 characters of the question; the reply is
that record's assistant response.  `Ask` never returns a reply from a
record violating any of these conditions. -/
theorem claim_C1_ask_acceptance
    (serial question : List Char) (startTime : Int)
    (fetch : Nat → Option (List HistoryRecord)) (now endTime : Nat)
    (reply : List Char)
    (h : askLoop serial question startTime fetch now endTime = some reply) :
    ∃ t ∈ pollTimes now endTime, ∃ recs, fetch t = some recs ∧
      ∃ r ∈ recs,
        goContains r.recordKey serial = true ∧
        startTime ≤ r.timestamp ∧
        goContains (goToLower r.customerUtterance) (goToLower (question.take 20)) = true ∧
        r.alexaResponse = reply := by
  rw [askLoop] at h
  obtain ⟨t, ht, hat⟩ := pollLoopF_some _ _ _ _ h
  rw [askAttempt] at hat
  rw [pollTimes]
  cases hf : fetch t with
  | none => rw [hf] at hat; cases hat
  | some recs =>
    rw [hf] at hat
    obtain ⟨r, hr, p1, p2, _, p4, _, p6⟩ := askScan_some recs reply hat
    exact ⟨t, ht, recs, hf, r, hr, p1, p2, p4, p6⟩

/-- C1 witness: a concrete accepted poll. -/
theorem claim_C1_witness :
    askLoop (strL "ABC") (strL "what time is it") 0
        (fun _ => some [⟨strL "c#1#t#ABC", 5, strL "ABC", strL "What time is it",
          strL "It is noon"⟩]) 0 1 = some (strL "It is noon")
    ∧ ∃ t ∈ pollTimes 0 1, ∃ recs,
        (fun _ : Nat => some ([⟨strL "c#1#t#ABC", 5, strL "ABC", strL "What time is it",
          strL "It is noon"⟩] : List HistoryRecord)) t = some recs ∧
        ∃ r ∈ recs,
          goContains r.recordKey (strL "ABC") = true ∧
          (0 : Int) ≤ r.timestamp ∧
          goContains (goToLower r.customerUtterance)
            (goToLower ((strL "what time is it").take 20)) = true ∧
          r.alexaResponse = strL "It is noon" :=
  ⟨by decide, claim_C1_ask_acceptance _ _ _ _ _ _ _ (by decide)⟩

/-- C2: When the multipart event POST returned HTTP 204 (so
`SendAVSTextMessageWithResponse` produced neither inline text nor a
conversation id), `AskPlus` fails with `NoConversationError` exactly when
no conversation id was previously set on the session; otherwise it
proceeds to the fragment polling phase (rather than returning an empty
string), whose outcome is independent of the send step. -/
theorem claim_C2_askplus_204 (priorConvID : List Char)
    (fetch : Nat → Option (List ConversationFragment)) (now endTime : Nat) :
    (askPlusModel priorConvID (some ([], [])) fetch now endTime
        = AskPlusResult.noConversation ↔ priorConvID = [])
    ∧ (priorConvID ≠ [] →
        askPlusModel priorConvID (some ([], [])) fetch now endTime
          = askPlusPollPhase fetch now endTime) := by
  have hmodel : askPlusModel priorConvID (some ([], [])) fetch now endTime
      = if priorConvID = [] then AskPlusResult.noConversation
        else askPlusPollPhase fetch now endTime := by
    simp [askPlusModel]
  constructor
  · rw [hmodel]
    by_cases hp : priorConvID = []
    · simp [hp]
    · rw [if_neg hp]
      rw [askPlusPollPhase]
      cases hl : askPlusLoop fetch now endTime with
      | some s => simp [hp]
      | none => simp [hp]
  · intro hp
    rw [hmodel, if_neg hp]

/-- C2 witness: with no session conversation id the call fails with
`NoConversationError`; with one set, it enters the polling phase. -/
theorem claim_C2_witness :
    (askPlusModel [] (some ([], [])) (fun _ => none) 0 1
        = AskPlusResult.noConversation)
    ∧ (strL "amzn1.conversation.x" ≠ [] ∧
        askPlusModel (strL "amzn1.conversation.x") (some ([], [])) (fun _ => none) 0 1
          = askPlusPollPhase (fun _ => none) 0 1) :=
  ⟨(claim_C2_askplus_204 [] (fun _ => none) 0 1).1.mpr rfl,
   by decide,
   (claim_C2_askplus_204 (strL "amzn1.conversation.x") (fun _ => none) 0 1).2 (by decide)⟩

/-- C3: Both polling loops yield `TimeoutError` (modelled `none`) exactly
when every iteration before the deadline fails to produce an accepted
match — in particular a fetch error in any single iteration is swallowed
and polling continues, and such an error is never surfaced; and once the
deadline is not in the future, both loops stop immediately with the
timeout outcome. -/
theorem claim_C3_poll_deadline
    (serial question : List Char) (startTime : Int)
    (fetchH : Nat → Option (List HistoryRecord))
    (fetchF : Nat → Option (List ConversationFragment)) (now endTime : Nat) :
    (askLoop serial question startTime fetchH now endTime = none ↔
      ∀ t ∈ pollTimes now endTime, ∀ recs, fetchH t = some recs →
        askScan serial question startTime recs = none)
    ∧ (askPlusLoop fetchF now endTime = none ↔
      ∀ t ∈ pollTimes now endTime, ∀ frags, fetchF t = some frags →
        fragScan frags = none)
    ∧ (endTime ≤ now →
        askLoop serial question startTime fetchH now endTime = none ∧
        askPlusLoop fetchF now endTime = none) := by
  have hH : ∀ t, (askAttempt serial question startTime fetchH t = none ↔
      ∀ recs, fetchH t = some recs → askScan serial question startTime recs = none) := by
    intro t
    rw [askAttempt]
    cases hf : fetchH t with
    | none => simp
    | some recs => simp
  have hF : ∀ t, (askPlusAttempt fetchF t = none ↔
      ∀ frags, fetchF t = some frags → fragScan frags = none) := by
    intro t
    rw [askPlusAttempt]
    cases hf : fetchF t with
    | none => simp
    | some frags => simp
  refine ⟨?_, ?_, ?_⟩
  · rw [askLoop, pollTimes, pollLoopF_none_iff]
    exact ⟨fun h t ht => (hH t).mp (h t ht), fun h t ht => (hH t).mpr (h t ht)⟩
  · rw [askPlusLoop, pollTimes, pollLoopF_none_iff]
    exact ⟨fun h t ht => (hF t).mp (h t ht), fun h t ht => (hF t).mpr (h t ht)⟩
  · intro hle
    have h0 : endTime - now = 0 := by omega
    rw [askLoop, askPlusLoop, h0]
    exact ⟨rfl, rfl⟩

/-- C3 witness: at an already-expired deadline both loops return the
timeout outcome at once. -/
theorem claim_C3_witness :
    (1 ≤ 1) ∧
    (askLoop (strL "ABC") (strL "q") 0 (fun _ => none) 1 1 = none ∧
      askPlusLoop (fun _ => none) 1 1 = none) :=
  ⟨Nat.le_refl 1,
   (claim_C3_poll_deadline (strL "ABC") (strL "q") 0 (fun _ => none)
     (fun _ => none) 1 1).2.2 (Nat.le_refl 1)⟩

/-- C4: Whenever the 200-response parser extracts a non-empty inline
reply, that reply is one of the captures produced by applying the quoted
`"text"` field extractor to all matches in the raw body, it does not
contain (hence is not equal to) the echoed input text, and the raw body
contains an agent marker (`LLM:APE` or the `"purpose":"AGENT"`
indicator).  So for every raw body and input text the returned inline
response satisfies the acceptance rule. -/
theorem claim_C4_inline_acceptance (input raw : List Char)
    (h : avsResponseText input raw ≠ []) :
    avsResponseText input raw ∈ findTextMatches raw ∧
    goContains (avsResponseText input raw) input = false ∧
    avsResponseText input raw ≠ input ∧
    (goContains raw (strL "LLM:APE") = true ∨
      goContains raw (strL "\"purpose\":\"AGENT\"") = true) := by
  have h' : avsSelectText input raw (findTextMatches raw) 0 ≠ [] := h
  obtain ⟨hm, hni, hmk⟩ := avsSelectText_spec input raw (findTextMatches raw) 0 h'
  refine ⟨hm, hni, ?_, hmk⟩
  intro heq
  have heq' : avsSelectText input raw (findTextMatches raw) 0 = input := heq
  rw [heq', goContains_self input] at hni
  cases hni

/-- C4 witness: a concrete 200 body with an echoed question and an agent
reply. -/
theorem claim_C4_witness :
    avsResponseText (strL "question")
        (strL "\"purpose\":\"AGENT\" \"text\": \"question\" \"text\": \"answer\"") ≠ []
    ∧ (avsResponseText (strL "question")
          (strL "\"purpose\":\"AGENT\" \"text\": \"question\" \"text\": \"answer\"")
        ∈ findTextMatches
          (strL "\"purpose\":\"AGENT\" \"text\": \"question\" \"text\": \"answer\"") ∧
      goContains (avsResponseText (strL "question")
          (strL "\"purpose\":\"AGENT\" \"text\": \"question\" \"text\": \"answer\""))
        (strL "question") = false ∧
      avsResponseText (strL "question")
          (strL "\"purpose\":\"AGENT\" \"text\": \"question\" \"text\": \"answer\"")
        ≠ strL "question" ∧
      (goContains (strL "\"purpose\":\"AGENT\" \"text\": \"question\" \"text\": \"answer\"")
          (strL "LLM:APE") = true ∨
        goContains (strL "\"purpose\":\"AGENT\" \"text\": \"question\" \"text\": \"answer\"")
          (strL "\"purpose\":\"AGENT\"") = true)) :=
  ⟨by decide, claim_C4_inline_acceptance _ _ (by decide)⟩

/-- C5: Routine execution resolves its target by case-insensitive exact
name match: any execution call it issues replays, verbatim with status
`ENABLED`, the stored sequence of a listed routine whose lowercased name
equals the lowercased request; and it fails with `NotFoundError` (issuing
no execution call) exactly when no routine's name matches exactly up to
case — in particular a request matching only a proper substring of every
routine name fails. -/
theorem claim_C5_routine_matching (routines : List Routine) (routineName : List Char) :
    (∀ call, executeRoutineModel routines routineName = some call →
      ∃ r ∈ routines, goToLower r.name = goToLower routineName ∧
        call = ⟨r.automationID, r.sequence, strL "ENABLED"⟩)
    ∧ (executeRoutineModel routines routineName = none ↔
        ∀ r ∈ routines, goToLower r.name ≠ goToLower routineName) := by
  have hunfold : executeRoutineModel routines routineName
      = match findRoutineGo routines (goToLower routineName) with
        | none => none
        | some r => some ⟨r.automationID, r.sequence, strL "ENABLED"⟩ := rfl
  cases hf : findRoutineGo routines (goToLower routineName) with
  | some r =>
    have hf' : routines.find? (fun x => goToLower x.name == goToLower routineName)
        = some r := hf
    have hmem : r ∈ routines := List.mem_of_find?_eq_some hf'
    have hp : goToLower r.name = goToLower routineName := by
      have := List.find?_some hf'
      simpa using this
    have hev : executeRoutineModel routines routineName
        = some ⟨r.automationID, r.sequence, strL "ENABLED"⟩ := by
      rw [hunfold, hf]
    constructor
    · intro call hc
      rw [hev] at hc
      cases hc
      exact ⟨r, hmem, hp, rfl⟩
    · rw [hev]
      constructor
      · intro hc; cases hc
      · intro hall; exact absurd hp (hall r hmem)
  | none =>
    have hf' : routines.find? (fun x => goToLower x.name == goToLower routineName)
        = none := hf
    have hev : executeRoutineModel routines routineName = none := by rw [hunfold, hf]
    constructor
    · intro call hc
      rw [hev] at hc
      cases hc
    · rw [hev]
      constructor
      · intro _ r hr
        have := List.find?_eq_none.mp hf' r hr
        simpa using this
      · intro _; rfl

/-- C5 witness: `"good night"` matches a routine named `"Good Night"` and
replays its stored sequence; a name present only as a proper substring
(`"Good Night Mode"`) does not match. -/
theorem claim_C5_witness :
    (executeRoutineModel [⟨strL "id1", strL "Good Night", strL "SEQ"⟩] (strL "good night")
        = some ⟨strL "id1", strL "SEQ", strL "ENABLED"⟩
      ∧ ∃ r ∈ [(⟨strL "id1", strL "Good Night", strL "SEQ"⟩ : Routine)],
          goToLower r.name = goToLower (strL "good night") ∧
          (⟨strL "id1", strL "SEQ", strL "ENABLED"⟩ : ExecCall)
            = ⟨r.automationID, r.sequence, strL "ENABLED"⟩)
    ∧ executeRoutineModel [⟨strL "id2", strL "Good Night Mode", strL "SEQ2"⟩]
        (strL "good night") = none :=
  ⟨⟨by decide,
    (claim_C5_routine_matching [⟨strL "id1", strL "Good Night", strL "SEQ"⟩]
      (strL "good night")).1 _ (by decide)⟩,
   (claim_C5_routine_matching [⟨strL "id2", strL "Good Night Mode", strL "SEQ2"⟩]
      (strL "good night")).2.mpr (by decide)⟩

/-- C6: Payload construction in `SequenceCommand` is deterministic given
the inputs it reads — it is a pure function of the session customer id,
the device's type, serial number and owner customer id, and the command
text (devices differing in any other field yield identical payloads, and
there are no generated ids in these payloads); the literal text is
embedded through Go's JSON string encoder, whose output a JSON string
reader decodes back to exactly the original text (quotes, newlines,
unicode included) while leaving the surrounding envelope intact; and in
the speak payload the encoded text sits between the fixed template parts
of the envelope. -/
theorem claim_C6_payload_determinism (cid : List Char) (d1 d2 : DeviceM)
    (command : List Char)
    (hdt : d1.deviceType = d2.deviceType) (hsn : d1.serialNumber = d2.serialNumber)
    (hoc : d1.deviceOwnerCustomerID = d2.deviceOwnerCustomerID) :
    sequenceCommandModel cid d1 command = sequenceCommandModel cid d2 command
    ∧ (∀ text rest : List Char,
        decodeJSONStringAt (goEncodeString text ++ rest) = some (text, rest))
    ∧ (∀ dt sn c text : List Char, speakSequenceJson dt sn c text
        = (strL spkT0 ++ dt ++ strL spkT1 ++ sn ++ strL spkT2 ++ c ++ strL spkT3)
          ++ (goEncodeString text ++ strL spkT4)) := by
  refine ⟨?_, fun text rest => decodeJSONStringAt_encode text rest,
    fun dt sn c text => by simp [speakSequenceJson, List.append_assoc]⟩
  rw [sequenceCommandModel, sequenceCommandModel, hdt, hsn, hoc]

/-- C6 witness: two devices equal on the used fields but different
elsewhere produce identical payloads. -/
theorem claim_C6_witness :
    sequenceCommandModel (strL "CUST")
        ⟨strL "Kitchen Echo", strL "SN1", strL "T1", strL "ECHO", strL "OWN", true, []⟩
        (strL "speak:'Hello \"world\"'")
      = sequenceCommandModel (strL "CUST")
        ⟨strL "Office Echo", strL "SN1", strL "T1", strL "KNIGHT", strL "OWN", false,
          [strL "VOLUME_SETTING"]⟩
        (strL "speak:'Hello \"world\"'") :=
  (claim_C6_payload_determinism (strL "CUST")
    ⟨strL "Kitchen Echo", strL "SN1", strL "T1", strL "ECHO", strL "OWN", true, []⟩
    ⟨strL "Office Echo", strL "SN1", strL "T1", strL "KNIGHT", strL "OWN", false,
      [strL "VOLUME_SETTING"]⟩
    (strL "speak:'Hello \"world\"'") rfl rfl rfl).1

/-- C7: Client construction's credential exchange succeeds whenever the
token-exchange call returns HTTP 200 with at least one cookie and a CSRF
value is obtainable from the CSRF probe or the cookie blob, and it fails
with `AuthError` whenever the exchange does not return HTTP 200 or
returns zero cookies. -/
theorem claim_C7_authenticate (status : Nat) (cookies respCookies : List ExchangeCookie) :
    ((status = 200 ∧ cookies ≠ [] ∧
        fetchCSRFModel (buildCookieBlob cookies) respCookies ≠ none) →
      authenticateModel status cookies respCookies ≠ none)
    ∧ ((status ≠ 200 ∨ cookies = []) → authenticateModel status cookies respCookies = none) := by
  constructor
  · rintro ⟨h200, hck, hcsrf⟩
    rw [authenticateModel]
    have : ¬ status ≠ 200 := by simp [h200]
    rw [if_neg this, if_neg (buildCookieBlob_ne_nil cookies hck)]
    exact hcsrf
  · rintro (hs | hc)
    · rw [authenticateModel, if_pos hs]
    · subst hc
      rw [authenticateModel]
      by_cases hs : status ≠ 200
      · rw [if_pos hs]
      · rw [if_neg hs]
        have : buildCookieBlob [] = [] := rfl
        rw [if_pos this]

/-- C7 witness: a 200 exchange with one cookie and a CSRF response cookie
succeeds; a 200 exchange with zero cookies fails. -/
theorem claim_C7_witness :
    ((200 = 200 ∧ [(⟨strL "sess", strL "v1"⟩ : ExchangeCookie)] ≠ [] ∧
        fetchCSRFModel (buildCookieBlob [⟨strL "sess", strL "v1"⟩])
          [⟨strL "csrf", strL "TOK"⟩] ≠ none) ∧
      authenticateModel 200 [⟨strL "sess", strL "v1"⟩] [⟨strL "csrf", strL "TOK"⟩] ≠ none)
    ∧ authenticateModel 200 [] [⟨strL "csrf", strL "TOK"⟩] = none :=
  ⟨⟨⟨rfl, by decide, by decide⟩,
    (claim_C7_authenticate 200 [⟨strL "sess", strL "v1"⟩] [⟨strL "csrf", strL "TOK"⟩]).1
      ⟨rfl, by decide, by decide⟩⟩,
   (claim_C7_authenticate 200 [] [⟨strL "csrf", strL "TOK"⟩]).2 (Or.inr rfl)⟩

/-- C8: Activity-CSRF extraction fails with `ProtocolError` exactly when
none of the 4 textual patterns (meta tag, data attribute, embedded script
variable, inline anti-CSRF marker) matches anywhere in the body; the
first pattern's match wins when present; and for each of the 4 patterns,
a canonical instance embedded in an otherwise-arbitrary body makes the
extraction succeed. -/
theorem claim_C8_activity_csrf :
    (∀ body : List Char, fetchActivityCSRFModel body = none ↔
      (scanFirst pat1MatchAt body = none ∧ scanFirst pat2MatchAt body = none ∧
        scanFirst pat3MatchAt body = none ∧ scanFirst pat4MatchAt body = none))
    ∧ (∀ body v, scanFirst pat1MatchAt body = some v →
        fetchActivityCSRFModel body = some v)
    ∧ (∀ pre post tok : List Char, tok ≠ [] → (∀ c ∈ tok, c ≠ '"') →
        fetchActivityCSRFModel (pre ++ (lit1 ++ (tok ++ '"' :: post))) ≠ none)
    ∧ (∀ pre post tok : List Char, tok ≠ [] → (∀ c ∈ tok, c ≠ '"') →
        fetchActivityCSRFModel (pre ++ (lit2 ++ (tok ++ '"' :: post))) ≠ none)
    ∧ (∀ pre post tok : List Char, tok ≠ [] → (∀ c ∈ tok, c ≠ '"') →
        fetchActivityCSRFModel (pre ++ (lit3 ++ (':' :: '"' :: (tok ++ '"' :: post)))) ≠ none)
    ∧ (∀ pre post tok : List Char, tok ≠ [] → (∀ c ∈ tok, isP4Class c = false) →
        fetchActivityCSRFModel
          (pre ++ (lit4 ++ (':' :: ' ' :: '"' :: (tok ++ '"' :: post)))) ≠ none) := by
  have hne : ∀ (body : List Char),
      (scanFirst pat1MatchAt body).isSome ∨ (scanFirst pat2MatchAt body).isSome ∨
      (scanFirst pat3MatchAt body).isSome ∨ (scanFirst pat4MatchAt body).isSome →
      fetchActivityCSRFModel body ≠ none := by
    intro body hsome hnone
    rw [fetchActivityCSRFModel_none_iff] at hnone
    rcases hsome with h | h | h | h <;>
      simp [hnone.1, hnone.2.1, hnone.2.2.1, hnone.2.2.2] at h
  refine ⟨fetchActivityCSRFModel_none_iff, ?_, ?_, ?_, ?_, ?_⟩
  · intro body v h
    rw [fetchActivityCSRFModel, h]
  · intro pre post tok hne' hq
    exact hne _ (Or.inl (scanFirst_isSome pat1MatchAt pre _ tok
      (by simp [lit1]) (pat1MatchAt_inst tok post hne' hq)))
  · intro pre post tok hne' hq
    exact hne _ (Or.inr (Or.inl (scanFirst_isSome pat2MatchAt pre _ tok
      (by simp [lit2]) (pat2MatchAt_inst tok post hne' hq))))
  · intro pre post tok hne' hq
    exact hne _ (Or.inr (Or.inr (Or.inl (scanFirst_isSome pat3MatchAt pre _ tok
      (by simp [lit3]) (pat3MatchAt_inst tok post hne' hq)))))
  · intro pre post tok hne' hcl
    exact hne _ (Or.inr (Or.inr (Or.inr (scanFirst_isSome pat4MatchAt pre _ tok
      (by simp [lit4]) (pat4MatchAt_inst tok post hne' hcl)))))

/-- C8 witness: a meta-tag instance embedded in an arbitrary page
succeeds. -/
theorem claim_C8_witness :
    (strL "TOKEN123" ≠ [] ∧ (∀ c ∈ strL "TOKEN123", c ≠ '"')) ∧
    fetchActivityCSRFModel
      (strL "<html><head>" ++ (lit1 ++ (strL "TOKEN123" ++ '"' :: strL "></head>")))
      ≠ none :=
  ⟨⟨by decide, by decide⟩,
   claim_C8_activity_csrf.2.2.1 (strL "<html><head>") (strL "></head>")
     (strL "TOKEN123") (by decide) (by decide)⟩

/-- C9: A command string carrying none of the four recognised kind
tags (`speak:`, `announcement:`, `textcommand:`, `automation:`) makes
`SequenceCommand` fail with the unknown-command error and issue no remote
call; the only session-state change on this path is the first-time
caching of the customer id from the target device, which happens before
the tag is examined. -/
theorem claim_C9_unknown_command (customerID : List Char) (device : DeviceM)
    (command : List Char)
    (h1 : listStarts command (strL "speak:") = false)
    (h2 : listStarts command (strL "announcement:") = false)
    (h3 : listStarts command (strL "textcommand:") = false)
    (h4 : listStarts command (strL "automation:") = false) :
    sequenceCommandModel customerID device command
      = ((if customerID = [] then device.deviceOwnerCustomerID else customerID), none) := by
  rw [sequenceCommandModel]
  simp [h1, h2, h3, h4]

/-- C9 witness: an unrecognised command kind with an empty cached
customer id caches the device's owner id and issues no call. -/
theorem claim_C9_witness :
    (listStarts (strL "play:jazz") (strL "speak:") = false ∧
      listStarts (strL "play:jazz") (strL "announcement:") = false ∧
      listStarts (strL "play:jazz") (strL "textcommand:") = false ∧
      listStarts (strL "play:jazz") (strL "automation:") = false) ∧
    sequenceCommandModel []
        ⟨strL "Kitchen", strL "SN1", strL "T1", strL "ECHO", strL "OWNER9", true, []⟩
        (strL "play:jazz")
      = (strL "OWNER9", none) :=
  ⟨⟨by decide, by decide, by decide, by decide⟩, by
    have := claim_C9_unknown_command []
      ⟨strL "Kitchen", strL "SN1", strL "T1", strL "ECHO", strL "OWNER9", true, []⟩
      (strL "play:jazz") (by decide) (by decide) (by decide) (by decide)
    simpa using this⟩

/-- C10: Whenever `Ask`'s polling phase returns a reply it is non-empty,
and whenever `AskPlus` returns a reply (inline or from a polled
fragment, possibly extended with attribution lines) it is non-empty. -/
theorem claim_C10_nonempty_replies
    (serial question : List Char) (startTime : Int)
    (fetchH : Nat → Option (List HistoryRecord))
    (priorConvID : List Char) (send : Option (List Char × List Char))
    (fetchF : Nat → Option (List ConversationFragment)) (now endTime : Nat) :
    (∀ s, askLoop serial question startTime fetchH now endTime = some s → s ≠ [])
    ∧ (∀ s, askPlusModel priorConvID send fetchF now endTime = AskPlusResult.reply s →
        s ≠ []) := by
  have hplusLoop : ∀ s, askPlusLoop fetchF now endTime = some s → s ≠ [] := by
    intro s h
    rw [askPlusLoop] at h
    obtain ⟨t, _, hat⟩ := pollLoopF_some _ _ _ _ h
    rw [askPlusAttempt] at hat
    cases hf : fetchF t with
    | none => rw [hf] at hat; cases hat
    | some frags =>
      rw [hf] at hat
      exact fragScan_some_ne_nil frags s hat
  constructor
  · intro s h
    rw [askLoop] at h
    obtain ⟨t, _, hat⟩ := pollLoopF_some _ _ _ _ h
    rw [askAttempt] at hat
    cases hf : fetchH t with
    | none => rw [hf] at hat; cases hat
    | some recs =>
      rw [hf] at hat
      obtain ⟨r, _, _, _, _, _, hresp, hrfl⟩ := askScan_some recs s hat
      rw [← hrfl]
      exact hresp
  · intro s h
    cases send with
    | none => simp [askPlusModel] at h
    | some p =>
      obtain ⟨convID, initialText⟩ := p
      rw [askPlusModel] at h
      by_cases hit : initialText ≠ []
      · rw [if_pos hit] at h
        cases h
        exact hit
      · rw [if_neg hit] at h
        by_cases hcid : (if convID ≠ [] then convID else priorConvID) = []
        · rw [if_pos hcid] at h
          cases h
        · rw [if_neg hcid] at h
          rw [askPlusPollPhase] at h
          cases hl : askPlusLoop fetchF now endTime with
          | some w =>
            rw [hl] at h
            injection h with hws
            exact hws ▸ hplusLoop w hl
          | none => rw [hl] at h; cases h

/-- C10 witness: the concrete accepted `Ask` poll yields a non-empty
reply. -/
theorem claim_C10_witness :
    askLoop (strL "SN9") (strL "is the door locked") 0
        (fun _ => some [⟨strL "c#2#t#SN9", 7, strL "SN9", strL "Is the door locked",
          strL "The door is locked."⟩]) 0 1 = some (strL "The door is locked.")
    ∧ strL "The door is locked." ≠ [] :=
  ⟨by decide,
   (claim_C10_nonempty_replies (strL "SN9") (strL "is the door locked") 0
     (fun _ => some [⟨strL "c#2#t#SN9", 7, strL "SN9", strL "Is the door locked",
       strL "The door is locked."⟩]) [] none (fun _ => none) 0 1).1 _ (by decide)⟩
